import Mathlib

/-!
Verification development for the DataAnalysisProjekt repository: a sales
analytics pipeline (Python aggregation engine) whose artifact
`analytics.json` is consumed by a Next.js dashboard, orchestrated by a
PowerShell script.

The repository snapshot contains the frontend sources
(`frontend/app/page.tsx`, `frontend/components/*.tsx`), the README and the
orchestration script.  The Python engine (`sales-analytics/main.py`) is not
part of the snapshot, so the engine is modelled here from the specification
(each such definition is marked `Modelled from the spec:`); the frontend and
the orchestration script are embedded directly from their sources.
-/

namespace SA

/-! ## Engine data model (modelled from the spec, §3) -/

/-- Order status, one of the three enumerated values (spec §3). -/
inductive Status where
  | completed
  | pending
  | cancelled
deriving DecidableEq, Repr

/-- Modelled from the spec: the validated `Order` row of §3 produced by the
Record Loader of the missing `sales-analytics/main.py`.  The `YYYY-MM`
month bucket is coded as a natural number (`year * 12 + month`) so that the
chronological order on buckets is the order on `ℕ`. -/
structure Order where
  order_id : Nat
  customer_id : String
  product_category : String
  product_name : String
  quantity : Nat
  unit_price : ℚ
  order_month : Nat
  status : Status
deriving DecidableEq, Repr

/-- Derived revenue of one order: `quantity × unit_price` (spec §3). -/
def Order.revenue (o : Order) : ℚ := (o.quantity : ℚ) * o.unit_price

/-- A validated row has positive quantity and non-negative unit price
(spec §4.1). -/
def Order.valid (o : Order) : Prop := 0 < o.quantity ∧ 0 ≤ o.unit_price

instance (o : Order) : Decidable o.valid := by
  unfold Order.valid
  infer_instance

/-! ## Grouping primitives

The Aggregator groups the validated rows by a key (category, month,
status, customer) and sums a value over each group. -/

/-- The distinct keys present in the data, in first-seen order. -/
def keysOf {κ : Type} [DecidableEq κ] (l : List Order) (k : Order → κ) :
    List κ :=
  (l.map k).dedup

/-- The summed value of the orders having a given key. -/
def groupSum {κ : Type} [DecidableEq κ] (l : List Order) (k : Order → κ)
    (v : Order → ℚ) (key : κ) : ℚ :=
  ((l.filter (fun o => k o = key)).map v).sum

/-- The number of orders having a given key. -/
def groupCount {κ : Type} [DecidableEq κ] (l : List Order) (k : Order → κ)
    (key : κ) : Nat :=
  (l.filter (fun o => k o = key)).length

/-! ## Metric Aggregator (modelled from the spec, §4.2) -/

/-- Modelled from the spec: `total_revenue`, the sum of revenue over all
validated orders, cancelled orders included. -/
def total_revenue (l : List Order) : ℚ := (l.map Order.revenue).sum

/-- Modelled from the spec: `order_count`, the count of validated orders. -/
def order_count (l : List Order) : Nat := l.length

/-- The distinct customers present in the data. -/
def customersOf (l : List Order) : List String := keysOf l Order.customer_id

/-- Modelled from the spec: `customer_count`, the count of distinct
`customer_id` values. -/
def customer_count (l : List Order) : Nat := (customersOf l).length

/-- Modelled from the spec: `average_order_value = total_revenue /
order_count` when `order_count > 0`, else a defined zero value. -/
def average_order_value (l : List Order) : ℚ :=
  if order_count l = 0 then 0 else total_revenue l / (order_count l : ℚ)

/-- Modelled from the spec: `repeat_customer_rate`, the percentage of
distinct customers with at least two orders, `0` when there are no
customers. -/
def repeat_customer_rate (l : List Order) : ℚ :=
  if customer_count l = 0 then 0
  else 100 * (((customersOf l).filter
    (fun c => 2 ≤ groupCount l Order.customer_id c)).length : ℚ) /
    (customer_count l : ℚ)

/-- Modelled from the spec: `revenue_by_category`, mapping each distinct
category present to its summed revenue. -/
def revenue_by_category (l : List Order) : List (String × ℚ) :=
  (keysOf l Order.product_category).map
    (fun c => (c, groupSum l Order.product_category Order.revenue c))

/-- Modelled from the spec: `most_profitable_category`, the category of
maximum summed revenue, ties resolved to the lexicographically first
name; `none` when there is no category. -/
def most_profitable_category (l : List Order) : Option (String × ℚ) :=
  (revenue_by_category l).foldl
    (fun acc p =>
      match acc with
      | none => some p
      | some q =>
          if q.2 < p.2 ∨ (p.2 = q.2 ∧ p.1 < q.1) then some p else some q)
    none

/-- The month buckets present in the data, sorted chronologically. -/
def sortedMonths (l : List Order) : List Nat :=
  (keysOf l Order.order_month).insertionSort (· ≤ ·)

/-- Summed revenue of one month bucket. -/
def monthRevenue (l : List Order) (m : Nat) : ℚ :=
  groupSum l Order.order_month Order.revenue m

/-- Modelled from the spec: `monthly_revenue`, mapping each month present
(chronological order) to its summed revenue. -/
def monthly_revenue (l : List Order) : List (Nat × ℚ) :=
  (sortedMonths l).map (fun m => (m, monthRevenue l m))

/-- The growth entries of the months after the earliest one: each month
`m` with chronological predecessor `prev` gets
`100 × (rev m − rev prev) / rev prev`, or `0` when `rev prev = 0`. -/
def growthAux (rev : Nat → ℚ) : Nat → List Nat → List (Nat × ℚ)
  | _, [] => []
  | prev, m :: ms =>
      (m, if rev prev = 0 then 0 else 100 * (rev m - rev prev) / rev prev)
        :: growthAux rev m ms

/-- Modelled from the spec: `monthly_growth`, the month-over-month revenue
growth percentage; the earliest month present always gets `0`. -/
def monthly_growth (l : List Order) : List (Nat × ℚ) :=
  match sortedMonths l with
  | [] => []
  | m :: ms => (m, 0) :: growthAux (monthRevenue l) m ms

/-- The statuses present in the data. -/
def statusesOf (l : List Order) : List Status := keysOf l Order.status

/-- Modelled from the spec: the `count` component of
`order_status_distribution`, mapping each status present to its order
count. -/
def status_count (l : List Order) : List (Status × Nat) :=
  (statusesOf l).map (fun s => (s, groupCount l Order.status s))

/-- Modelled from the spec: the `percentage` component of
`order_status_distribution`, mapping each status present to
`100 × count / order_count`. -/
def status_percentage (l : List Order) : List (Status × ℚ) :=
  (statusesOf l).map
    (fun s => (s, 100 * (groupCount l Order.status s : ℚ) /
      (order_count l : ℚ)))

/-! ## Ranker (modelled from the spec, §4.3) -/

/-- One entry of `top_customers` (spec §4.3 / §6). -/
structure CustomerEntry where
  customer_id : String
  lifetime_value : ℚ
  order_count : Nat
  avg_order_value : ℚ
deriving DecidableEq, Repr

/-- One entry of `top_products` (spec §4.3 / §6). -/
structure ProductEntry where
  product_category : String
  product_name : String
  revenue : ℚ
  quantity : Nat
  order_count : Nat
deriving DecidableEq, Repr

/-- Modelled from the spec: the documented top-N bound of the Ranker
("a generous bound, e.g. top 20", spec §4.3). -/
def TOP_N : Nat := 20

/-- The customer aggregate of one `customer_id` (spec §3). -/
def mkCustomerEntry (l : List Order) (c : String) : CustomerEntry :=
  { customer_id := c
    lifetime_value := groupSum l Order.customer_id Order.revenue c
    order_count := groupCount l Order.customer_id c
    avg_order_value :=
      if groupCount l Order.customer_id c = 0 then 0
      else groupSum l Order.customer_id Order.revenue c /
        (groupCount l Order.customer_id c : ℚ) }

/-- The ranking order of `top_customers`: descending `lifetime_value`,
ties broken by `customer_id` ascending (spec §4.3). -/
def custRank (a b : CustomerEntry) : Prop :=
  b.lifetime_value < a.lifetime_value ∨
    (a.lifetime_value = b.lifetime_value ∧ a.customer_id ≤ b.customer_id)

instance : DecidableRel custRank := by
  unfold custRank
  infer_instance

/-- Modelled from the spec: `top_customers`, the customer aggregates
ordered descending by lifetime value (ties by `customer_id` ascending),
truncated to the documented bound. -/
def top_customers (l : List Order) : List CustomerEntry :=
  (((customersOf l).map (mkCustomerEntry l)).insertionSort custRank).take
    TOP_N

/-- The product key: `(product_category, product_name)` (spec §3). -/
def prodKey (o : Order) : String × String :=
  (o.product_category, o.product_name)

/-- The product aggregate of one `(category, name)` key (spec §3). -/
def mkProductEntry (l : List Order) (k : String × String) : ProductEntry :=
  { product_category := k.1
    product_name := k.2
    revenue := groupSum l prodKey Order.revenue k
    quantity := ((l.filter (fun o => prodKey o = k)).map Order.quantity).sum
    order_count := groupCount l prodKey k }

/-- The ranking order of `top_products`: descending summed revenue, ties
broken by `product_name` ascending (spec §4.3). -/
def prodRank (a b : ProductEntry) : Prop :=
  b.revenue < a.revenue ∨ (a.revenue = b.revenue ∧ a.product_name ≤ b.product_name)

instance : DecidableRel prodRank := by
  unfold prodRank
  infer_instance

/-- Modelled from the spec: `top_products`, the product aggregates ordered
descending by summed revenue (ties by `product_name` ascending), truncated
to the documented bound. -/
def top_products (l : List Order) : List ProductEntry :=
  (((keysOf l prodKey).map (mkProductEntry l)).insertionSort prodRank).take
    TOP_N

/-! ## Report Assembler (modelled from the spec, §4.4 and §6) -/

/-- Modelled from the spec: the `Report` output entity, one immutable
snapshot of all aggregates of §6.  `order_status_distribution` is carried
as its two components `status_count` / `status_percentage`. -/
structure Report where
  total_revenue : ℚ
  average_order_value : ℚ
  customer_count : Nat
  order_count : Nat
  repeat_customer_rate : ℚ
  most_profitable_category : Option (String × ℚ)
  revenue_by_category : List (String × ℚ)
  top_customers : List CustomerEntry
  monthly_revenue : List (Nat × ℚ)
  monthly_growth : List (Nat × ℚ)
  status_count : List (Status × Nat)
  status_percentage : List (Status × ℚ)
  top_products : List ProductEntry
deriving DecidableEq, Repr

/-- Modelled from the spec: the Assembler, a pure structural composition
of the Aggregator and Ranker outputs (spec §4.4). -/
def buildReport (l : List Order) : Report :=
  { total_revenue := total_revenue l
    average_order_value := average_order_value l
    customer_count := customer_count l
    order_count := order_count l
    repeat_customer_rate := repeat_customer_rate l
    most_profitable_category := most_profitable_category l
    revenue_by_category := revenue_by_category l
    top_customers := top_customers l
    monthly_revenue := monthly_revenue l
    monthly_growth := monthly_growth l
    status_count := status_count l
    status_percentage := status_percentage l
    top_products := top_products l }

/-- Modelled from the spec: serialization of the Report to its textual
artifact; the byte content is a function of the Report value alone. -/
def serializeReport (r : Report) : String := reprStr r

/-! ## Frontend embedding (from `src/frontend`)

JavaScript `x || 0` on a number is `0` exactly when `x` is absent
(`undefined`) or equal to `0`; on a present non-zero number it is the
number itself. -/

/-- JavaScript `x || 0` applied to an optional number
(`undefined → 0`, `0 → 0`). -/
def jsOrZero (x : Option ℚ) : ℚ :=
  match x with
  | none => 0
  | some v => if v = 0 then 0 else v

/-- JavaScript `x || 1` applied to an optional number
(`undefined → 1`, `0 → 1`), as in `products[0]?.revenue || 1`. -/
def jsOrOne (x : Option ℚ) : ℚ :=
  match x with
  | none => 1
  | some v => if v = 0 then 1 else v

/-- From `frontend/app/page.tsx` lines 90–91: the header trend value
`growthValues[growthValues.length - 1] || 0` over
`Object.values(analytics.monthly_growth)`. -/
def latestGrowth (monthly_growth : List (String × ℚ)) : ℚ :=
  jsOrZero ((monthly_growth.map Prod.snd)[(monthly_growth.map Prod.snd).length - 1]?)

/-- JavaScript object lookup `growth[month]` on the mapping embedded as a
key-value list. -/
def jsLookup (growth : List (String × ℚ)) (month : String) : Option ℚ :=
  (growth.find? (fun p => p.1 = month)).map Prod.snd

/-- From `frontend/components/RevenueChart.tsx` line 27: the growth shown
for a month of the revenue chart, `growth[month] || 0`. -/
def chartGrowth (growth : List (String × ℚ)) (month : String) : ℚ :=
  jsOrZero (jsLookup growth month)

/-- A `chartData` entry of `frontend/components/CategoryChart.tsx`
lines 21–25. -/
structure CategoryChartEntry where
  name : String
  fullName : String
  revenue : ℚ
deriving DecidableEq, Repr

/-- From `frontend/components/CategoryChart.tsx` line 22: the displayed
label, `name.length > 12 ? name.substring(0, 12) + '...' : name`. -/
def truncateName (n : String) : String :=
  if 12 < n.length then n.take 12 ++ "..." else n

/-- From `frontend/components/CategoryChart.tsx` lines 21–25:
`Object.entries(data).map(([name, revenue]) => ({name: …, fullName: name,
revenue}))`. -/
def categoryChartData (data : List (String × ℚ)) : List CategoryChartEntry :=
  data.map (fun p => { name := truncateName p.1, fullName := p.1, revenue := p.2 })

/-- From `frontend/components/CategoryChart.tsx` line 31: the tooltip
title displays `payload[0].payload.fullName`. -/
def categoryTooltipTitle (e : CategoryChartEntry) : String := e.fullName

/-- From the `TopCustomers` component (`customers.slice(0, 10)`): the rows
the customer table renders. -/
def renderedTopCustomers (customers : List CustomerEntry) :
    List CustomerEntry :=
  customers.take 10

/-- From the `TopProducts` component (`products.slice(0, 8)`): the rows
the product list renders. -/
def renderedTopProducts (products : List ProductEntry) : List ProductEntry :=
  products.take 8

/-- From the `TopProducts` component: `maxRevenue = products[0]?.revenue
|| 1`, computed on the full (unsliced) array. -/
def maxRevenue (products : List ProductEntry) : ℚ :=
  jsOrOne (products.head?.map ProductEntry.revenue)

/-- From the `TopProducts` component: `barWidth = (product.revenue /
maxRevenue) * 100`. -/
def barWidth (products : List ProductEntry) (p : ProductEntry) : ℚ :=
  p.revenue / maxRevenue products * 100

/-! ## Orchestration script embedding (from the repository's PowerShell
script, `src/unnamed/part_000`)

The script runs the Python backend inside `try { python main.py } catch {
… exit 1 }`, then copies `output/analytics.json` to the frontend only
under a `Test-Path` guard (emitting a warning otherwise), then starts the
frontend. -/

/-- The observable circumstances of one script run: whether `python
main.py` raises a PowerShell terminating error (for example the `python`
command is missing), whether it runs but exits with a non-zero code (the
analysis script failing), and whether `output/analytics.json` exists after
the step (possibly stale from an earlier run). -/
structure ScriptEnv where
  backendRaises : Bool
  backendExitNonzero : Bool
  artifactPresent : Bool
deriving DecidableEq, Repr

/-- The observable outcome of one script run. -/
structure ScriptResult where
  exitCode : Nat
  copyRan : Bool
  warned : Bool
  frontendStarted : Bool
deriving DecidableEq, Repr

/-- The control flow of the orchestration script under PowerShell
semantics: `try/catch` fires only on a terminating error, not on a native
command's non-zero exit code (`$ErrorActionPreference = "Stop"` does not
change that), and `$LASTEXITCODE` is never checked — so a `python main.py`
run that merely exits non-zero falls through to the copy step, which
copies whatever `Test-Path` finds (possibly a stale artifact), and the
script proceeds with exit code `0`.  Only a terminating error takes the
`catch` path with `exit 1`. -/
def runScript (e : ScriptEnv) : ScriptResult :=
  if e.backendRaises then
    { exitCode := 1, copyRan := false, warned := false,
      frontendStarted := false }
  else if e.artifactPresent then
    { exitCode := 0, copyRan := true, warned := false,
      frontendStarted := true }
  else
    { exitCode := 0, copyRan := false, warned := true,
      frontendStarted := true }

/-! ## Output schema (spec §6 table vs `frontend/app/page.tsx`)

JSON value kinds as TypeScript sees them: the spec's `integer` entries
are JSON numbers constrained to integral values, and TypeScript declares
them as `number`, the one numeric type JSON and TypeScript share. -/

/-- The shape of one JSON value of the artifact schema. -/
inductive JTy where
  | num : JTy
  | str : JTy
  | map : JTy → JTy
  | obj : List (String × JTy) → JTy
  | arr : JTy → JTy

/-- The field set, nesting and value types of the `Analytics` interface of
`frontend/app/page.tsx` lines 12–39, in declaration order. -/
def frontendAnalyticsFields : List (String × JTy) :=
  [("total_revenue", JTy.num),
   ("average_order_value", JTy.num),
   ("customer_count", JTy.num),
   ("order_count", JTy.num),
   ("repeat_customer_rate", JTy.num),
   ("most_profitable_category",
     JTy.obj [("name", JTy.str), ("revenue", JTy.num)]),
   ("revenue_by_category", JTy.map JTy.num),
   ("top_customers",
     JTy.arr (JTy.obj
       [("customer_id", JTy.str), ("lifetime_value", JTy.num),
        ("order_count", JTy.num), ("avg_order_value", JTy.num)])),
   ("monthly_revenue", JTy.map JTy.num),
   ("monthly_growth", JTy.map JTy.num),
   ("order_status_distribution",
     JTy.obj [("count", JTy.map JTy.num), ("percentage", JTy.map JTy.num)]),
   ("top_products",
     JTy.arr (JTy.obj
       [("product_category", JTy.str), ("product_name", JTy.str),
        ("revenue", JTy.num), ("quantity", JTy.num),
        ("order_count", JTy.num)]))]

/-- The schema table of spec §6, row by row (`integer` rendered as the
JSON number kind). -/
def specSchemaFields : List (String × JTy) :=
  [("total_revenue", JTy.num),
   ("average_order_value", JTy.num),
   ("customer_count", JTy.num),
   ("order_count", JTy.num),
   ("repeat_customer_rate", JTy.num),
   ("most_profitable_category",
     JTy.obj [("name", JTy.str), ("revenue", JTy.num)]),
   ("revenue_by_category", JTy.map JTy.num),
   ("top_customers",
     JTy.arr (JTy.obj
       [("customer_id", JTy.str), ("lifetime_value", JTy.num),
        ("order_count", JTy.num), ("avg_order_value", JTy.num)])),
   ("monthly_revenue", JTy.map JTy.num),
   ("monthly_growth", JTy.map JTy.num),
   ("order_status_distribution",
     JTy.obj [("count", JTy.map JTy.num), ("percentage", JTy.map JTy.num)]),
   ("top_products",
     JTy.arr (JTy.obj
       [("product_category", JTy.str), ("product_name", JTy.str),
        ("revenue", JTy.num), ("quantity", JTy.num),
        ("order_count", JTy.num)]))]

/-! ## Partition-sum lemmas

Summing a grouped value over the distinct keys present recovers the
ungrouped total. -/

theorem sum_map_ite_of_not_mem {M κ : Type} [AddCommMonoid M] [DecidableEq κ]
    (ks : List κ) (a : κ) (c : M) (h : a ∉ ks) :
    (ks.map (fun k => if a = k then c else 0)).sum = 0 := by
  induction ks with
  | nil => simp
  | cons b bs ih =>
      simp only [List.mem_cons, not_or] at h
      simp [h.1, ih h.2]

theorem sum_map_ite_single {M κ : Type} [AddCommMonoid M] [DecidableEq κ]
    (ks : List κ) (hnd : ks.Nodup) (a : κ) (ha : a ∈ ks) (c : M) :
    (ks.map (fun k => if a = k then c else 0)).sum = c := by
  induction ks with
  | nil => cases ha
  | cons b bs ih =>
      rcases List.mem_cons.mp ha with h | h
      · subst h
        simp [sum_map_ite_of_not_mem bs a c (List.nodup_cons.mp hnd).1]
      · have hab : a ≠ b := by
          rintro rfl
          exact (List.nodup_cons.mp hnd).1 h
        simp [hab, ih (List.nodup_cons.mp hnd).2 h]

theorem sum_over_keys {α M κ : Type} [AddCommMonoid M] [DecidableEq κ]
    (k : α → κ) (v : α → M) :
    ∀ (l : List α) (ks : List κ), ks.Nodup → (∀ x ∈ l, k x ∈ ks) →
      (ks.map (fun key => ((l.filter (fun x => k x = key)).map v).sum)).sum
        = (l.map v).sum
  | [], ks, _, _ => by
      simp only [List.filter_nil, List.map_nil, List.sum_nil]
      induction ks with
      | nil => rfl
      | cons b bs ih => simp [ih]
  | x :: xs, ks, hnd, hk => by
      have hx : k x ∈ ks := hk x (List.mem_cons_self x xs)
      have hxs : ∀ y ∈ xs, k y ∈ ks := fun y hy =>
        hk y (List.mem_cons_of_mem x hy)
      have hstep : ∀ key : κ,
          (((x :: xs).filter (fun y => k y = key)).map v).sum
            = (if k x = key then v x else 0)
              + ((xs.filter (fun y => k y = key)).map v).sum := by
        intro key
        by_cases h : k x = key
        · simp [List.filter_cons, h]
        · simp [List.filter_cons, h]
      simp only [hstep]
      rw [List.sum_map_add, sum_map_ite_single ks hnd (k x) hx (v x),
        sum_over_keys k v xs ks hnd hxs]
      simp

theorem sum_map_one_nat {α : Type} (l : List α) :
    (l.map (fun _ => (1 : ℕ))).sum = l.length := by
  induction l with
  | nil => rfl
  | cons x xs ih => simp [ih, Nat.add_comm]

theorem sum_map_one_rat {α : Type} (l : List α) :
    (l.map (fun _ => (1 : ℚ))).sum = (l.length : ℚ) := by
  induction l with
  | nil => rfl
  | cons x xs ih =>
      simp only [List.map_cons, List.sum_cons, ih, List.length_cons]
      push_cast
      ring

theorem sum_revenue_by_category (l : List Order) :
    ((revenue_by_category l).map Prod.snd).sum = total_revenue l := by
  unfold revenue_by_category total_revenue groupSum keysOf
  rw [List.map_map]
  exact sum_over_keys Order.product_category Order.revenue l _
    (List.nodup_dedup _)
    (fun o ho => List.mem_dedup.mpr (List.mem_map_of_mem _ ho))

theorem sum_status_count (l : List Order) :
    ((status_count l).map Prod.snd).sum = order_count l := by
  unfold status_count statusesOf order_count groupCount keysOf
  rw [List.map_map]
  have h := sum_over_keys Order.status (fun _ => (1 : ℕ)) l
    ((l.map Order.status).dedup) (List.nodup_dedup _)
    (fun o ho => List.mem_dedup.mpr (List.mem_map_of_mem _ ho))
  have e1 : ∀ s, (l.filter (fun o => Order.status o = s)).length
      = ((l.filter (fun o => Order.status o = s)).map (fun _ => (1 : ℕ))).sum :=
    fun s => (sum_map_one_nat _).symm
  show ((l.map Order.status).dedup.map
    (fun s => (l.filter (fun o => Order.status o = s)).length)).sum = l.length
  simp only [e1]
  rw [h, sum_map_one_nat]

theorem sum_status_count_rat (l : List Order) :
    ((statusesOf l).map (fun s => (groupCount l Order.status s : ℚ))).sum
      = (order_count l : ℚ) := by
  unfold statusesOf order_count groupCount keysOf
  have h := sum_over_keys Order.status (fun _ => (1 : ℚ)) l
    ((l.map Order.status).dedup) (List.nodup_dedup _)
    (fun o ho => List.mem_dedup.mpr (List.mem_map_of_mem _ ho))
  have e1 : ∀ s, ((l.filter (fun o => Order.status o = s)).length : ℚ)
      = ((l.filter (fun o => Order.status o = s)).map (fun _ => (1 : ℚ))).sum :=
    fun s => (sum_map_one_rat _).symm
  simp only [e1]
  rw [h, sum_map_one_rat]

theorem sum_status_percentage (l : List Order) :
    ((status_percentage l).map Prod.snd).sum =
      if order_count l = 0 then 0 else 100 := by
  by_cases h : l = []
  · subst h
    simp [status_percentage, statusesOf, keysOf, order_count]
  · have hlen : order_count l ≠ 0 := by
      simpa [order_count, List.length_eq_zero] using h
    have hlenQ : ((order_count l : ℚ)) ≠ 0 := Nat.cast_ne_zero.mpr hlen
    unfold status_percentage
    rw [List.map_map]
    show ((statusesOf l).map (fun s =>
      100 * (groupCount l Order.status s : ℚ) / (order_count l : ℚ))).sum
      = if order_count l = 0 then 0 else 100
    have e2 : (fun s => 100 * (groupCount l Order.status s : ℚ) /
        (order_count l : ℚ))
        = (fun s => (100 / (order_count l : ℚ)) *
          (groupCount l Order.status s : ℚ)) := by
      funext s
      ring
    rw [e2, List.sum_map_mul_left, sum_status_count_rat,
      div_mul_cancel₀ _ hlenQ, if_neg hlen]

/-! ## Monthly-growth indexing -/

/-- The entry of `growthAux` at index `i` describes the month `ms[i]` and
its chronological predecessor `(prev :: ms)[i]`. -/
theorem growthAux_getElem? (rev : Nat → ℚ) :
    ∀ (ms : List Nat) (prev : Nat) (i : Nat) (p m : Nat),
      (prev :: ms)[i]? = some p → ms[i]? = some m →
      (growthAux rev prev ms)[i]?
        = some (m, if rev p = 0 then 0 else 100 * (rev m - rev p) / rev p)
  | [], _, i, p, m, _, hm => by cases i <;> simp at hm
  | m1 :: ms, prev, 0, p, m, hp, hm => by
      simp only [List.getElem?_cons_zero, Option.some.injEq] at hp hm
      subst hp
      subst hm
      simp [growthAux]
  | m1 :: ms, prev, i + 1, p, m, hp, hm => by
      simp only [List.getElem?_cons_succ] at hp hm
      simp only [growthAux, List.getElem?_cons_succ]
      exact growthAux_getElem? rev ms m1 i p m hp hm

/-! ## Ranking order facts -/

instance : IsTotal CustomerEntry custRank where
  total a b := by
    rcases lt_trichotomy a.lifetime_value b.lifetime_value with h | h | h
    · exact Or.inr (Or.inl h)
    · rcases le_total a.customer_id b.customer_id with hs | hs
      · exact Or.inl (Or.inr ⟨h, hs⟩)
      · exact Or.inr (Or.inr ⟨h.symm, hs⟩)
    · exact Or.inl (Or.inl h)

instance : IsTrans CustomerEntry custRank where
  trans a b c hab hbc := by
    rcases hab with h1 | ⟨h1, h1s⟩ <;> rcases hbc with h2 | ⟨h2, h2s⟩
    · exact Or.inl (lt_trans h2 h1)
    · exact Or.inl (h2 ▸ h1)
    · exact Or.inl (h1 ▸ h2)
    · exact Or.inr ⟨h1.trans h2, le_trans h1s h2s⟩

instance : IsTotal ProductEntry prodRank where
  total a b := by
    rcases lt_trichotomy a.revenue b.revenue with h | h | h
    · exact Or.inr (Or.inl h)
    · rcases le_total a.product_name b.product_name with hs | hs
      · exact Or.inl (Or.inr ⟨h, hs⟩)
      · exact Or.inr (Or.inr ⟨h.symm, hs⟩)
    · exact Or.inl (Or.inl h)

instance : IsTrans ProductEntry prodRank where
  trans a b c hab hbc := by
    rcases hab with h1 | ⟨h1, h1s⟩ <;> rcases hbc with h2 | ⟨h2, h2s⟩
    · exact Or.inl (lt_trans h2 h1)
    · exact Or.inl (h2 ▸ h1)
    · exact Or.inl (h1 ▸ h2)
    · exact Or.inr ⟨h1.trans h2, le_trans h1s h2s⟩

theorem top_customers_pairwise (l : List Order) :
    (top_customers l).Pairwise custRank :=
  List.Pairwise.sublist (List.take_sublist _ _)
    (List.sorted_insertionSort custRank _)

theorem top_products_pairwise (l : List Order) :
    (top_products l).Pairwise prodRank :=
  List.Pairwise.sublist (List.take_sublist _ _)
    (List.sorted_insertionSort prodRank _)

/-- Every ranked entry is `prodRank`-below the head, so its revenue is at
most the head's revenue. -/
theorem revenue_le_head (ps : List ProductEntry) (hpw : ps.Pairwise prodRank)
    (h : ProductEntry) (hh : ps.head? = some h) :
    ∀ p ∈ ps, p.revenue ≤ h.revenue := by
  cases ps with
  | nil => cases hh
  | cons a rest =>
      cases hh
      intro p hp
      rcases List.mem_cons.mp hp with rfl | hp
      · exact le_refl _
      · rcases (List.pairwise_cons.mp hpw).1 p hp with hlt | ⟨heq, _⟩
        · exact le_of_lt hlt
        · exact le_of_eq heq.symm

/-- Every emitted product aggregate has non-negative revenue when every
validated row has a non-negative unit price. -/
theorem top_products_revenue_nonneg (l : List Order)
    (hv : ∀ o ∈ l, 0 ≤ o.unit_price) :
    ∀ p ∈ top_products l, 0 ≤ p.revenue := by
  intro p hp
  have hp2 : p ∈ (keysOf l prodKey).map (mkProductEntry l) := by
    have := List.mem_of_mem_take hp
    rwa [List.mem_insertionSort] at this
  obtain ⟨key, _, rfl⟩ := List.mem_map.mp hp2
  show 0 ≤ groupSum l prodKey Order.revenue key
  unfold groupSum
  apply List.sum_nonneg
  intro x hx
  obtain ⟨o, ho, rfl⟩ := List.mem_map.mp hx
  have hop := hv o (List.mem_of_mem_filter ho)
  unfold Order.revenue
  exact mul_nonneg (Nat.cast_nonneg _) hop

/-! ## Concrete fixtures -/

/-- Two validated orders of one customer in two consecutive months
(revenues 20 and 30). -/
def ordersW : List Order :=
  [{ order_id := 1, customer_id := "C1", product_category := "Books",
     product_name := "BookA", quantity := 2, unit_price := 10,
     order_month := 1, status := Status.completed },
   { order_id := 2, customer_id := "C1", product_category := "Books",
     product_name := "BookA", quantity := 3, unit_price := 10,
     order_month := 2, status := Status.completed }]

/-- Ten validated orders of ten distinct customers buying ten distinct
products. -/
def ordersTen : List Order :=
  [{ order_id := 1, customer_id := "C1", product_category := "Books",
     product_name := "P1", quantity := 1, unit_price := 1,
     order_month := 1, status := Status.completed },
   { order_id := 2, customer_id := "C2", product_category := "Books",
     product_name := "P2", quantity := 1, unit_price := 2,
     order_month := 1, status := Status.completed },
   { order_id := 3, customer_id := "C3", product_category := "Books",
     product_name := "P3", quantity := 1, unit_price := 3,
     order_month := 1, status := Status.completed },
   { order_id := 4, customer_id := "C4", product_category := "Books",
     product_name := "P4", quantity := 1, unit_price := 4,
     order_month := 1, status := Status.completed },
   { order_id := 5, customer_id := "C5", product_category := "Books",
     product_name := "P5", quantity := 1, unit_price := 5,
     order_month := 1, status := Status.completed },
   { order_id := 6, customer_id := "C6", product_category := "Books",
     product_name := "P6", quantity := 1, unit_price := 6,
     order_month := 1, status := Status.completed },
   { order_id := 7, customer_id := "C7", product_category := "Books",
     product_name := "P7", quantity := 1, unit_price := 7,
     order_month := 1, status := Status.completed },
   { order_id := 8, customer_id := "C8", product_category := "Books",
     product_name := "P8", quantity := 1, unit_price := 8,
     order_month := 1, status := Status.completed },
   { order_id := 9, customer_id := "C9", product_category := "Books",
     product_name := "P9", quantity := 1, unit_price := 9,
     order_month := 1, status := Status.completed },
   { order_id := 10, customer_id := "CA", product_category := "Books",
     product_name := "PA", quantity := 1, unit_price := 10,
     order_month := 1, status := Status.completed }]

/-! ## Claims -/

/-- C1: the output artifact consumed by the presentation layer is a single
JSON object with exactly the twelve top-level keys and value types of the
spec's schema table, and the consuming frontend's `Analytics` type
(`frontend/app/page.tsx` lines 12–39) declares exactly this field set,
nesting, and types, no more and no fewer. -/
theorem c1_schema_contract :
    frontendAnalyticsFields = specSchemaFields ∧
      frontendAnalyticsFields.length = 12 :=
  ⟨rfl, rfl⟩

/-- C2: for every validated order sequence, the Report's partition sums
equal its totals: the values of `revenue_by_category` sum to
`total_revenue`, the values of `order_status_distribution.count` sum to
`order_count`, and the values of `order_status_distribution.percentage`
sum to 100 (0 when `order_count = 0`). -/
theorem c2_partition_sums (l : List Order) :
    (((buildReport l).revenue_by_category.map Prod.snd).sum
        = (buildReport l).total_revenue) ∧
      (((buildReport l).status_count.map Prod.snd).sum
        = (buildReport l).order_count) ∧
      (((buildReport l).status_percentage.map Prod.snd).sum
        = if (buildReport l).order_count = 0 then 0 else 100) :=
  ⟨sum_revenue_by_category l, sum_status_count l, sum_status_percentage l⟩

/-- C3: on an empty validated order sequence the engine returns a Report
with zero counts, zero revenue figures, zero rates and empty mappings, and
`average_order_value` is a defined zero value whenever `order_count = 0`
(no division-by-zero fault). -/
theorem c3_empty_input :
    buildReport [] =
      { total_revenue := 0, average_order_value := 0, customer_count := 0,
        order_count := 0, repeat_customer_rate := 0,
        most_profitable_category := none, revenue_by_category := [],
        top_customers := [], monthly_revenue := [], monthly_growth := [],
        status_count := [], status_percentage := [], top_products := [] } ∧
      ∀ l : List Order, order_count l = 0 → average_order_value l = 0 := by
  refine ⟨by decide, ?_⟩
  intro l h
  simp [average_order_value, h]

/-- Witness for C3's guarded clause at the concrete empty input. -/
theorem c3_empty_input_witness :
    order_count ([] : List Order) = 0 ∧
      average_order_value ([] : List Order) = 0 :=
  ⟨rfl, c3_empty_input.2 [] rfl⟩

/-- C5: the engine is deterministic — identical validated input yields an
identical (hence byte-identical once serialized) Report, and the Ranker
yields identical ordered `top_customers` and `top_products` results on
each recomputation over the same input. -/
theorem c5_determinism (l1 l2 : List Order) (h : l1 = l2) :
    serializeReport (buildReport l1) = serializeReport (buildReport l2) ∧
      top_customers l1 = top_customers l2 ∧
      top_products l1 = top_products l2 := by
  subst h
  exact ⟨rfl, rfl, rfl⟩

/-- Witness for C5 at a concrete input. -/
theorem c5_determinism_witness :
    ordersW = ordersW ∧
      (serializeReport (buildReport ordersW)
          = serializeReport (buildReport ordersW) ∧
        top_customers ordersW = top_customers ordersW ∧
        top_products ordersW = top_products ordersW) :=
  ⟨rfl, c5_determinism ordersW ordersW rfl⟩

/-- C4: for every non-empty validated order sequence, `monthly_growth`
assigns `0` to the chronologically earliest month present, and every later
month `m` with chronological predecessor `p` among the months present gets
`100 × (rev m − rev p) / rev p` when `rev p ≠ 0` and `0` when `rev p = 0`;
no entry divides by zero. -/
theorem c4_monthly_growth (l : List Order) (h : l ≠ []) :
    (∃ m0, (sortedMonths l).head? = some m0 ∧
      (monthly_growth l).head? = some (m0, 0) ∧
      ∀ m ∈ sortedMonths l, m0 ≤ m) ∧
    ∀ i p m, (sortedMonths l)[i]? = some p →
      (sortedMonths l)[i + 1]? = some m →
      (monthly_growth l)[i + 1]?
        = some (m, if monthRevenue l p = 0 then 0
            else 100 * (monthRevenue l m - monthRevenue l p) /
              monthRevenue l p) := by
  obtain ⟨o, l2, rfl⟩ : ∃ o l2, l = o :: l2 := by
    cases l with
    | nil => exact absurd rfl h
    | cons o l2 => exact ⟨o, l2, rfl⟩
  have hmem : o.order_month ∈ sortedMonths (o :: l2) := by
    unfold sortedMonths keysOf
    rw [List.mem_insertionSort]
    exact List.mem_dedup.mpr (List.mem_map_of_mem _ (List.mem_cons_self _ _))
  obtain ⟨m0, ms, hsm⟩ : ∃ m0 ms, sortedMonths (o :: l2) = m0 :: ms := by
    cases hsm : sortedMonths (o :: l2) with
    | nil =>
        rw [hsm] at hmem
        cases hmem
    | cons a b => exact ⟨a, b, rfl⟩
  have hsorted : (sortedMonths (o :: l2)).Sorted (· ≤ ·) :=
    List.sorted_insertionSort _ _
  have hmg : monthly_growth (o :: l2)
      = (m0, 0) :: growthAux (monthRevenue (o :: l2)) m0 ms := by
    unfold monthly_growth
    rw [hsm]
  constructor
  · refine ⟨m0, by rw [hsm]; rfl, by rw [hmg]; rfl, ?_⟩
    intro m hm
    rw [hsm] at hm hsorted
    rcases List.mem_cons.mp hm with rfl | hm
    · exact le_refl _
    · exact (List.pairwise_cons.mp hsorted).1 m hm
  · intro i p m hp hm
    rw [hsm] at hp hm
    rw [hmg]
    rw [List.getElem?_cons_succ] at hm ⊢
    exact growthAux_getElem? (monthRevenue (o :: l2)) ms m0 i p m hp hm

/-- Witness for C4: two months with revenues 20 and 30 give the earliest
month growth 0 and the second month growth 50. -/
theorem c4_monthly_growth_witness :
    (monthly_growth ordersW)[1]? = some (2, 50) ∧
      (monthly_growth ordersW).head? = some (1, 0) := by
  have h := c4_monthly_growth ordersW (by decide)
  constructor
  · have h2 := h.2 0 1 2 (by decide) (by decide)
    rw [h2]
    norm_num [monthRevenue, groupSum, ordersW, Order.revenue]
  · obtain ⟨m0, h1, h2, -⟩ := h.1
    have e : (sortedMonths ordersW).head? = some 1 := by decide
    rw [e] at h1
    injection h1 with h1
    subst h1
    exact h2

/-- C6: the emitted `top_customers` is sorted descending by lifetime value
(ties by `customer_id` ascending) with no inversions, `top_products` is
sorted descending by revenue (ties by `product_name` ascending), and
consequently the frontend bar width `revenue / products[0].revenue × 100`
never exceeds 100 for any displayed product. -/
theorem c6_rankings (l : List Order) (hv : ∀ o ∈ l, 0 ≤ o.unit_price) :
    (top_customers l).Pairwise custRank ∧
      (top_products l).Pairwise prodRank ∧
      ∀ p ∈ renderedTopProducts (top_products l),
        barWidth (top_products l) p ≤ 100 := by
  refine ⟨top_customers_pairwise l, top_products_pairwise l, ?_⟩
  intro p hp
  have hp0 : p ∈ top_products l := List.mem_of_mem_take hp
  cases hh : (top_products l).head? with
  | none =>
      rw [List.head?_eq_none_iff] at hh
      rw [hh] at hp0
      cases hp0
  | some hd =>
      have hle : p.revenue ≤ hd.revenue :=
        revenue_le_head _ (top_products_pairwise l) hd hh p hp0
      have hpn : 0 ≤ p.revenue := top_products_revenue_nonneg l hv p hp0
      have hmem : hd ∈ top_products l := by
        cases htp : top_products l with
        | nil =>
            rw [htp] at hh
            cases hh
        | cons a rest =>
            rw [htp] at hh
            rw [List.head?_cons] at hh
            injection hh with hh
            subst hh
            exact List.mem_cons_self _ _
      have hdn : 0 ≤ hd.revenue := top_products_revenue_nonneg l hv hd hmem
      unfold barWidth maxRevenue
      rw [hh]
      by_cases hz : hd.revenue = 0
      · have hpz : p.revenue = 0 := le_antisymm (hz ▸ hle) hpn
        simp [jsOrOne, hz, hpz]
      · have hpos : 0 < hd.revenue := lt_of_le_of_ne hdn (Ne.symm hz)
        have hred : jsOrOne (Option.map ProductEntry.revenue (some hd))
            = hd.revenue := by
          simp [jsOrOne, hz]
        rw [hred]
        have h1 : p.revenue / hd.revenue ≤ 1 := (div_le_one hpos).mpr hle
        calc p.revenue / hd.revenue * 100 ≤ 1 * 100 :=
              mul_le_mul_of_nonneg_right h1 (by norm_num)
          _ = 100 := one_mul 100

/-- Witness for C6 at a concrete validated input. -/
theorem c6_rankings_witness :
    (∀ o ∈ ordersW, 0 ≤ o.unit_price) ∧
      ((top_customers ordersW).Pairwise custRank ∧
        (top_products ordersW).Pairwise prodRank ∧
        ∀ p ∈ renderedTopProducts (top_products ordersW),
          barWidth (top_products ordersW) p ≤ 100) :=
  ⟨by decide, c6_rankings ordersW (by decide)⟩

/-- C7: the presentation layer truncates the ranked views to its display
limits — the customer table renders the first 10 entries of
`top_customers` and the product list the first 8 entries of
`top_products` — while the core emits a fixed-size top slice bounded by
the documented constant `TOP_N = 20`, which is at least that large. -/
theorem c7_display_limits (customers : List CustomerEntry)
    (products : List ProductEntry) (l : List Order) :
    renderedTopCustomers customers = customers.take 10 ∧
      renderedTopProducts products = products.take 8 ∧
      TOP_N = 20 ∧ 10 ≤ TOP_N ∧ 8 ≤ TOP_N ∧
      (top_customers l).length = min TOP_N (customer_count l) ∧
      (top_products l).length = min TOP_N (keysOf l prodKey).length ∧
      (10 ≤ customer_count l →
        (renderedTopCustomers (top_customers l)).length = 10) ∧
      (8 ≤ (keysOf l prodKey).length →
        (renderedTopProducts (top_products l)).length = 8) := by
  have hc : (top_customers l).length = min TOP_N (customer_count l) := by
    unfold top_customers customer_count customersOf
    rw [List.length_take, List.length_insertionSort, List.length_map]
  have hp : (top_products l).length = min TOP_N (keysOf l prodKey).length := by
    unfold top_products
    rw [List.length_take, List.length_insertionSort, List.length_map]
  have hT : TOP_N = 20 := rfl
  refine ⟨rfl, rfl, rfl, by omega, by omega, hc, hp, ?_, ?_⟩
  · intro h10
    unfold renderedTopCustomers
    rw [List.length_take, hc, hT]
    omega
  · intro h8
    unfold renderedTopProducts
    rw [List.length_take, hp, hT]
    omega

/-- Witness for C7: ten distinct customers and ten distinct products make
the rendered views exactly 10 and 8 rows long. -/
theorem c7_display_limits_witness :
    10 ≤ customer_count ordersTen ∧
      (renderedTopCustomers (top_customers ordersTen)).length = 10 :=
  ⟨by decide,
    (c7_display_limits [] [] ordersTen).2.2.2.2.2.2.2.1 (by decide)⟩

/-- C8: the claim says a failing Python backend step makes the script
exit with code 1 before the copy step runs, so a stale or partial
artifact is never propagated.  The code does not do this: PowerShell's
`try/catch` does not fire on a native command's non-zero exit code and
`$LASTEXITCODE` is never checked, so when `python main.py` merely exits
non-zero while a stale `output/analytics.json` from an earlier run
exists, the script proceeds with exit code 0 and copies the stale
artifact; only a terminating error (such as a missing `python` command)
takes the `catch` path with `exit 1` and no copy. -/
theorem c8_orchestration_bug :
    runScript (ScriptEnv.mk false true true)
        = ScriptResult.mk 0 true false true ∧
      runScript (ScriptEnv.mk true false true)
        = ScriptResult.mk 1 false false false :=
  ⟨rfl, rfl⟩

/-- C9: the dashboard header trend indicator is total: an empty
`monthly_growth` yields 0 through the `|| 0` coercion rather than a
fault, a month absent from the growth mapping renders with growth 0 in
the revenue chart, and an actual last-month growth of 0 is
indistinguishable from the empty mapping (both give 0). -/
theorem c9_latest_growth (g : List (String × ℚ)) :
    latestGrowth [] = 0 ∧
      (∀ m : String, latestGrowth (g ++ [(m, 0)]) = 0) ∧
      ∀ month : String, jsLookup g month = none → chartGrowth g month = 0 := by
  refine ⟨rfl, ?_, ?_⟩
  · intro m
    unfold latestGrowth
    simp only [List.map_append, List.map_cons, List.map_nil]
    have hlen : (g.map Prod.snd ++ [(0 : ℚ)]).length - 1
        = (g.map Prod.snd).length := by
      simp
    rw [hlen, List.getElem?_concat_length]
    decide
  · intro month hnone
    unfold chartGrowth
    rw [hnone]
    rfl

/-- Witness for C9 at the empty growth mapping. -/
theorem c9_latest_growth_witness :
    jsLookup [] "2024-01" = none ∧ chartGrowth [] "2024-01" = 0 :=
  ⟨rfl, (c9_latest_growth []).2.2 "2024-01" rfl⟩

/-- C10: the category chart's label truncation is information-preserving
at the tooltip: every chart entry keeps the original category name in
`fullName` (which the tooltip always displays), the displayed label is
the original name when at most 12 characters and its first 12 characters
followed by "..." otherwise, and every data pair is represented by such
an entry. -/
theorem c10_category_truncation (data : List (String × ℚ)) :
    (∀ e ∈ categoryChartData data,
      categoryTooltipTitle e = e.fullName ∧
        e.name = truncateName e.fullName ∧
        (e.fullName.length ≤ 12 → e.name = e.fullName) ∧
        (12 < e.fullName.length → e.name = e.fullName.take 12 ++ "...")) ∧
      ∀ p ∈ data, ∃ e ∈ categoryChartData data,
        e.fullName = p.1 ∧ e.revenue = p.2 ∧ e.name = truncateName p.1 := by
  constructor
  · intro e he
    obtain ⟨p, hp, rfl⟩ := List.mem_map.mp he
    refine ⟨rfl, rfl, ?_, ?_⟩
    · intro hle
      simp [truncateName, Nat.not_lt.mpr hle]
    · intro hlt
      simp [truncateName, hlt]
  · intro p hp
    exact ⟨_, List.mem_map_of_mem _ hp, rfl, rfl, rfl⟩

/-- The chart entry of the category "Books". -/
def entryBooks : CategoryChartEntry :=
  { name := "Books", fullName := "Books", revenue := 5 }

/-- Witness for C10 on the concrete mapping with the category "Books". -/
theorem c10_category_truncation_witness :
    entryBooks ∈ categoryChartData [("Books", (5 : ℚ))] ∧
      "Books".length ≤ 12 ∧ entryBooks.name = entryBooks.fullName :=
  ⟨by decide, by decide,
    ((c10_category_truncation [("Books", (5 : ℚ))]).1 entryBooks
      (by decide)).2.2.1 (by decide)⟩

end SA
